import Mathlib

/-!
Verification of the Reminder App state model.

The repository holds two variants of the same React Native component file:
`src/App.tsx` (variant A) and `src/unnamed/part_000` (variant B).  Both keep
the whole application state in three `useState` cells of `App`
(`showEditView`, `pendingReminders`, `completedReminders`) plus the draft
cells of `ReminderCreationView` (`date`, `title`, `description`, which stay
mounted — and hence keep their values — while the modal is hidden).

We embed that state as `AppState` and every user interaction as an event of
type `Ev`; `stepA`/`stepB` are the two variants' synchronous event handlers
(the app is single threaded and event driven, so a run is a fold of steps).

JS `Date` values are embedded as `Nat` milliseconds since the epoch:
`getTime` is the value itself and `getMilliseconds` is the
milliseconds-within-second component, exactly as in JS.  JS
`Array.prototype.sort` with a consistent comparator is a stable sort
(ES2019); `sortCmp` below is a stable insertion sort driven by the same
comparator, so it computes the same output list.
-/

/-- The `Reminder` record type of both variants: `{date, title, description}`.
There is no `id` and no `status` field in the source. -/
structure Reminder where
  date : Nat
  title : String
  description : String
deriving DecidableEq, Repr

/-- JS `Date.prototype.getTime`: the instant in milliseconds since the epoch. -/
def getTime (d : Nat) : Int := (d : Int)

/-- JS `Date.prototype.getMilliseconds`: the milliseconds-within-second
component (0–999) of the instant. -/
def getMilliseconds (d : Nat) : Int := ((d % 1000 : Nat) : Int)

/-- Insert `x` into `l`, keeping every `y` with `c y x ≤ 0` before `x`.
Together with `sortCmp` this is a stable insertion sort for the JS
comparator contract (`c a b < 0` puts `a` first, `0` keeps original order). -/
def insertCmp (c : Reminder → Reminder → Int) (x : Reminder) :
    List Reminder → List Reminder
  | [] => [x]
  | y :: ys => if c y x ≤ 0 then y :: insertCmp c x ys else x :: y :: ys

/-- Stable sort of `l` by the JS comparator `c`: elements are processed left
to right, each inserted after all already-placed elements that compare `≤ 0`
against it. For a consistent comparator this equals JS `Array.sort(c)`,
which is stable. -/
def sortCmp (c : Reminder → Reminder → Int) (l : List Reminder) : List Reminder :=
  l.foldl (fun acc x => insertCmp c x acc) []

/-- The comparator of variant A (used for both of its sorts):
`(a, b) => b.date.getMilliseconds() - a.date.getMilliseconds()`. -/
def byMsDesc (a b : Reminder) : Int :=
  getMilliseconds b.date - getMilliseconds a.date

/-- The pending comparator of variant B:
`(a, b) => a.date.getTime() - b.date.getTime()`. -/
def byTimeAsc (a b : Reminder) : Int :=
  getTime a.date - getTime b.date

/-- The whole mutable state of the app: the three `useState` cells of `App`
and the three draft cells of `ReminderCreationView` (which stays mounted, so
its cells survive closing the modal). -/
structure AppState where
  showEditView : Bool
  pendingReminders : List Reminder
  completedReminders : List Reminder
  date : Nat
  title : String
  description : String
deriving DecidableEq, Repr

/-- Initial state: `useState(false)`, two `useState([])`, `useState(new
Date())` (the mount instant `now`), and two `useState('')`. -/
def initState (now : Nat) : AppState :=
  ⟨false, [], [], now, "", ""⟩

/-- The record handed to `onCreation` by the Create button:
`{title: title, description: description, date: date}`. -/
def draft (s : AppState) : Reminder :=
  ⟨s.date, s.title, s.description⟩

/-- The user interactions the rendered UI offers.  `openView` is the
"Create a New Reminder" button, `focusLost` the press outside the modal
(cancel), the three setters are the modal's inputs, `create` the modal's
Create button (submit), and `complete i` the Complete button of the pending
item currently rendered at index `i`. -/
inductive Ev where
  | openView
  | focusLost
  | setTitle (t : String)
  | setDescription (d : String)
  | setDate (d : Nat)
  | create
  | complete (i : Nat)
deriving DecidableEq, Repr

/-- One synchronous event of variant A (`src/App.tsx`).  Controls that are
not rendered (modal inputs while hidden, a Complete button at an index with
no pending item) produce no event handler, so such an event changes
nothing.  `create` runs the Create button's `onPress`: `onCreation(draft)`
— which appends to `pendingReminders` and re-sorts with the
`getMilliseconds`-descending comparator — then `setTitle('')`,
`setDescription('')` (the date cell is untouched) and `onFocusLost()`.
`complete i` runs the item handler: `splice(i)` on a copy of pending, which
removes every element from index `i` on, then appends `r` to completed and
re-sorts it with the same comparator. -/
def stepA (e : Ev) (s : AppState) : AppState :=
  match e with
  | .openView => { s with showEditView := true }
  | .focusLost => { s with showEditView := false }
  | .setTitle t => if s.showEditView then { s with title := t } else s
  | .setDescription d => if s.showEditView then { s with description := d } else s
  | .setDate d => if s.showEditView then { s with date := d } else s
  | .create =>
    if s.showEditView then
      { s with
        pendingReminders := sortCmp byMsDesc (s.pendingReminders ++ [draft s]),
        title := "", description := "",
        showEditView := false }
    else s
  | .complete i =>
    if h : i < s.pendingReminders.length then
      { s with
        pendingReminders := s.pendingReminders.take i,
        completedReminders :=
          sortCmp byMsDesc
            (s.completedReminders ++ [s.pendingReminders.get ⟨i, h⟩]) }
    else s

/-- One synchronous event of variant B (`src/unnamed/part_000`).  Identical
to `stepA` except: `onCreation` re-sorts pending with the
`getTime`-ascending comparator, and `complete i` does `splice(i, 1)`
(remove exactly the element at `i`) and prepends it to completed:
`[r, ...completedReminders]`. -/
def stepB (e : Ev) (s : AppState) : AppState :=
  match e with
  | .openView => { s with showEditView := true }
  | .focusLost => { s with showEditView := false }
  | .setTitle t => if s.showEditView then { s with title := t } else s
  | .setDescription d => if s.showEditView then { s with description := d } else s
  | .setDate d => if s.showEditView then { s with date := d } else s
  | .create =>
    if s.showEditView then
      { s with
        pendingReminders := sortCmp byTimeAsc (s.pendingReminders ++ [draft s]),
        title := "", description := "",
        showEditView := false }
    else s
  | .complete i =>
    if h : i < s.pendingReminders.length then
      { s with
        pendingReminders := s.pendingReminders.eraseIdx i,
        completedReminders :=
          s.pendingReminders.get ⟨i, h⟩ :: s.completedReminders }
    else s

/-- Run variant A over a list of events. -/
def runA : List Ev → AppState → AppState
  | [], s => s
  | e :: es, s => runA es (stepA e s)

/-- Run variant B over a list of events. -/
def runB : List Ev → AppState → AppState
  | [], s => s
  | e :: es, s => runB es (stepB e s)

/-- The reminders a list of events completes in variant B, in completion
order (each `complete i` that targets an existing pending item contributes
that item). -/
def completionsB : List Ev → AppState → List Reminder
  | [], _ => []
  | e :: es, s =>
    (match e with
     | Ev.complete i =>
       if h : i < s.pendingReminders.length then
         [s.pendingReminders.get ⟨i, h⟩]
       else []
     | _ => []) ++ completionsB es (stepB e s)

theorem insertCmp_perm (c : Reminder → Reminder → Int) (x : Reminder)
    (l : List Reminder) : (insertCmp c x l).Perm (x :: l) := by
  induction l with
  | nil => exact List.Perm.refl _
  | cons y ys ih =>
    simp only [insertCmp]
    split
    · exact (ih.cons y).trans (List.Perm.swap x y ys)
    · exact List.Perm.refl _

theorem foldl_insertCmp_perm (c : Reminder → Reminder → Int) :
    ∀ (l acc : List Reminder),
      (l.foldl (fun a x => insertCmp c x a) acc).Perm (acc ++ l) := by
  intro l
  induction l with
  | nil => intro acc; simp
  | cons x xs ih =>
    intro acc
    have h1 : ((x :: xs).foldl (fun a x => insertCmp c x a) acc) =
        xs.foldl (fun a x => insertCmp c x a) (insertCmp c x acc) := rfl
    rw [h1]
    refine (ih _).trans ?_
    refine (((insertCmp_perm c x acc).append_right xs).trans ?_)
    exact List.perm_middle.symm

theorem sortCmp_perm (c : Reminder → Reminder → Int) (l : List Reminder) :
    (sortCmp c l).Perm l := by
  have h := foldl_insertCmp_perm c l []
  simpa [sortCmp] using h

/-- Claim C1 (code bug in variant A): completing a pending reminder in
`src/App.tsx` does not remove exactly the targeted reminder — its handler
calls `splice(i)` with no delete count, which removes every pending
reminder from index `i` on.  Creating three reminders (due instants 1, 2,
3; variant A keeps pending as [3, 2, 1]) and completing the first rendered
item leaves pending empty and completed `[3]`: reminders 1 and 2 vanish
from both collections, so `|pending| + |completed| = 1 ≠ 3` created.
Variant B (`splice(i, 1)`) preserves the partition on the same events. -/
theorem c1_spliceA_drops_later_pending :
    (runA [Ev.openView, Ev.setDate 1, Ev.create, Ev.openView, Ev.setDate 2,
      Ev.create, Ev.openView, Ev.setDate 3, Ev.create, Ev.complete 0]
      (initState 0)).pendingReminders = [] ∧
    (runA [Ev.openView, Ev.setDate 1, Ev.create, Ev.openView, Ev.setDate 2,
      Ev.create, Ev.openView, Ev.setDate 3, Ev.create, Ev.complete 0]
      (initState 0)).completedReminders = [⟨3, "", ""⟩] ∧
    (runB [Ev.openView, Ev.setDate 1, Ev.create, Ev.openView, Ev.setDate 2,
      Ev.create, Ev.openView, Ev.setDate 3, Ev.create, Ev.complete 0]
      (initState 0)).pendingReminders.length +
    (runB [Ev.openView, Ev.setDate 1, Ev.create, Ev.openView, Ev.setDate 2,
      Ev.create, Ev.openView, Ev.setDate 3, Ev.create, Ev.complete 0]
      (initState 0)).completedReminders.length = 3 := by
  refine ⟨by decide, by decide, by decide⟩

/-- Claim C2 (code bug in variant A): after creating reminders with due
instants 1 then 2, variant A's pending list is `[2, 1]` — not ascending by
due instant.  Its comparator
`(a, b) => b.date.getMilliseconds() - a.date.getMilliseconds()` sorts
descending by the milliseconds-within-second component, not ascending by
the due instant (variant B's `getTime`-ascending comparator gives the
claimed order). -/
theorem c2_pendingA_not_sorted_ascending :
    (runA [Ev.openView, Ev.setDate 1, Ev.create, Ev.openView, Ev.setDate 2,
      Ev.create] (initState 0)).pendingReminders.map (fun r => r.date)
      = [2, 1] ∧
    ¬ List.Sorted (fun a b => a ≤ b)
      ((runA [Ev.openView, Ev.setDate 1, Ev.create, Ev.openView, Ev.setDate 2,
        Ev.create] (initState 0)).pendingReminders.map (fun r => r.date)) := by
  refine ⟨by decide, by decide⟩

/-- Claim C3 counterexample: neither variant keeps `completedReminders`
sorted descending by due instant.  In variant B, completing due-2 then
due-1 (prepend each) leaves completed due-dates `[1, 2]`; in variant A,
completing due-1000 then due-1 (stable sort by the milliseconds component,
descending) leaves completed due-dates `[1, 1000]`.  Both fail the
descending-by-`dueAt` ordering the claim states. -/
theorem c3_completed_not_dueAt_descending :
    ¬ List.Sorted (fun a b => b ≤ a)
      ((runB [Ev.openView, Ev.setDate 2, Ev.create, Ev.openView, Ev.setDate 1,
        Ev.create, Ev.complete 1, Ev.complete 0]
        (initState 0)).completedReminders.map (fun r => r.date)) ∧
    ¬ List.Sorted (fun a b => b ≤ a)
      ((runA [Ev.openView, Ev.setDate 1000, Ev.create, Ev.openView,
        Ev.setDate 1, Ev.create, Ev.complete 1, Ev.complete 0]
        (initState 0)).completedReminders.map (fun r => r.date)) := by
  refine ⟨by decide, by decide⟩

/-- Claim C4 counterexample: the second completion of an already-completed
reminder is silently ignored, not a `NotFoundError` failure (no error value
exists anywhere in the source: completion is index-based, and a completed
reminder has no pending index, hence no Complete handler).  Running the
second `complete 0` produces a state identical to not running it at all, in
both variants. -/
theorem c4_second_complete_is_silently_ignored :
    runB [Ev.openView, Ev.create, Ev.complete 0, Ev.complete 0] (initState 0)
      = runB [Ev.openView, Ev.create, Ev.complete 0] (initState 0) ∧
    runA [Ev.openView, Ev.create, Ev.complete 0, Ev.complete 0] (initState 0)
      = runA [Ev.openView, Ev.create, Ev.complete 0] (initState 0) := by
  refine ⟨by decide, by decide⟩

/-- Claim C5 (code bug, flagged as such by the spec itself): submitting the
creation dialog with an empty (hence trimmed-empty) title is not rejected —
both variants create a reminder with empty title and close the dialog
(`showEditView = false`), instead of leaving pending unchanged with the
dialog open. -/
theorem c5_empty_title_submit_creates_reminder :
    (runB [Ev.openView, Ev.create] (initState 0)).pendingReminders.map
      (fun r => r.title) = [""] ∧
    (runB [Ev.openView, Ev.create] (initState 0)).showEditView = false ∧
    (runA [Ev.openView, Ev.create] (initState 0)).pendingReminders.map
      (fun r => r.title) = [""] ∧
    (runA [Ev.openView, Ev.create] (initState 0)).showEditView = false := by
  refine ⟨by decide, by decide, by decide, by decide⟩

/-- Claim C6 counterexample: submit does not reset the due-instant draft
cell.  With mount instant 0 (the default due instant), setting the date to
5 and submitting leaves the draft date 5 in both variants — not reset to
any default independent of the edit. -/
theorem c6_submit_keeps_edited_date :
    (runB [Ev.openView, Ev.setDate 5, Ev.create] (initState 0)).date = 5 ∧
    (runA [Ev.openView, Ev.setDate 5, Ev.create] (initState 0)).date = 5 ∧
    (initState 0).date = 0 := by
  refine ⟨by decide, by decide, by decide⟩

/-- Claim C7 counterexample: cancelling does not discard the draft.  After
`open`, `setTitle "A"`, cancel (press outside), and a subsequent `open`,
the title field still holds `"A"` in both variants (the creation view stays
mounted, so its `useState` cells survive), not the empty string the claim
requires. -/
theorem c7_cancel_keeps_title :
    (runB [Ev.openView, Ev.setTitle "A", Ev.focusLost, Ev.openView]
      (initState 0)).title = "A" ∧
    (runA [Ev.openView, Ev.setTitle "A", Ev.focusLost, Ev.openView]
      (initState 0)).title = "A" := by
  refine ⟨by decide, by decide⟩

/-- Claim C9: the two variants are not behaviourally equivalent.  On the
identical event sequence — create due-1, create due-2, complete the first
rendered pending item — variant A's completed list is `[⟨2,"",""⟩]` while
variant B's is `[⟨1,"",""⟩]`. -/
theorem c9_variants_differ_on_completed :
    (runA [Ev.openView, Ev.setDate 1, Ev.create, Ev.openView, Ev.setDate 2,
      Ev.create, Ev.complete 0] (initState 0)).completedReminders ≠
    (runB [Ev.openView, Ev.setDate 1, Ev.create, Ev.openView, Ev.setDate 2,
      Ev.create, Ev.complete 0] (initState 0)).completedReminders := by
  decide

/-- Claim C4 (amended): completion is index-based with no failure path: a
`complete` event whose index holds no pending item has no handler, so it
changes nothing — both collections (and the whole state) are untouched, and
no `NotFoundError` exists in the program. -/
theorem c4_absent_complete_is_noop (s : AppState) (i : Nat)
    (h : s.pendingReminders.length ≤ i) :
    stepA (Ev.complete i) s = s ∧ stepB (Ev.complete i) s = s := by
  have h' : ¬ i < s.pendingReminders.length := Nat.not_lt.mpr h
  constructor
  · simp [stepA, h']
  · simp [stepB, h']

/-- Witness for `c4_absent_complete_is_noop` at the initial state and
index 0. -/
theorem c4_absent_complete_is_noop_witness :
    (initState 0).pendingReminders.length ≤ 0 ∧
    (stepA (Ev.complete 0) (initState 0) = initState 0 ∧
     stepB (Ev.complete 0) (initState 0) = initState 0) :=
  ⟨by decide, c4_absent_complete_is_noop (initState 0) 0 (by decide)⟩

/-- Claim C6 (amended): submitting fires `onCreation` with the current
draft (which lands in pending) and closes the dialog with title and
description reset to empty, but the due-instant draft cell keeps its last
edited value — it is not reset to a default. -/
theorem c6_submit_emits_draft_resets_text_keeps_date (s : AppState)
    (h : s.showEditView = true) :
    stepA Ev.create s =
      { showEditView := false,
        pendingReminders := sortCmp byMsDesc (s.pendingReminders ++ [draft s]),
        completedReminders := s.completedReminders,
        date := s.date, title := "", description := "" } ∧
    stepB Ev.create s =
      { showEditView := false,
        pendingReminders := sortCmp byTimeAsc (s.pendingReminders ++ [draft s]),
        completedReminders := s.completedReminders,
        date := s.date, title := "", description := "" } := by
  constructor <;> simp [stepA, stepB, h]

/-- Witness for `c6_submit_emits_draft_resets_text_keeps_date` at a
concrete open-dialog state. -/
theorem c6_submit_emits_draft_resets_text_keeps_date_witness :
    (⟨true, [], [], 7, "t", "d"⟩ : AppState).showEditView = true ∧
    (stepA Ev.create ⟨true, [], [], 7, "t", "d"⟩ =
      { showEditView := false,
        pendingReminders :=
          sortCmp byMsDesc ([] ++ [draft ⟨true, [], [], 7, "t", "d"⟩]),
        completedReminders := [], date := 7, title := "", description := "" } ∧
     stepB Ev.create ⟨true, [], [], 7, "t", "d"⟩ =
      { showEditView := false,
        pendingReminders :=
          sortCmp byTimeAsc ([] ++ [draft ⟨true, [], [], 7, "t", "d"⟩]),
        completedReminders := [], date := 7, title := "", description := "" }) :=
  ⟨rfl, c6_submit_emits_draft_resets_text_keeps_date _ rfl⟩

/-- Claim C7 (amended): cancelling (pressing outside the modal) only hides
the dialog: it fires no creation event and creates no reminder, but the
draft is retained, not discarded — title, description and date cells (and
both reminder collections) are exactly as before, so a subsequent open
shows the previous values. -/
theorem c7_cancel_closes_dialog_keeps_draft (s : AppState) :
    stepA Ev.focusLost s = { s with showEditView := false } ∧
    stepB Ev.focusLost s = { s with showEditView := false } :=
  ⟨rfl, rfl⟩

/-- Claim C8: a completed reminder never leaves the completed collection:
no event of either variant decreases the number of copies of any record in
`completedReminders` (so nothing moves back to pending and nothing is
deleted). -/
theorem c8_completed_reminders_never_removed (e : Ev) (s : AppState)
    (r : Reminder) :
    s.completedReminders.count r ≤ (stepA e s).completedReminders.count r ∧
    s.completedReminders.count r ≤ (stepB e s).completedReminders.count r := by
  cases e with
  | openView => exact ⟨le_refl _, le_refl _⟩
  | focusLost => exact ⟨le_refl _, le_refl _⟩
  | setTitle t =>
    constructor <;> (simp only [stepA, stepB]; split <;> exact le_refl _)
  | setDescription d =>
    constructor <;> (simp only [stepA, stepB]; split <;> exact le_refl _)
  | setDate d =>
    constructor <;> (simp only [stepA, stepB]; split <;> exact le_refl _)
  | create =>
    constructor <;> (simp only [stepA, stepB]; split <;> exact le_refl _)
  | complete i =>
    by_cases h : i < s.pendingReminders.length
    · constructor
      · simp only [stepA]
        rw [dif_pos h]
        have hp := sortCmp_perm byMsDesc
          (s.completedReminders ++ [s.pendingReminders.get ⟨i, h⟩])
        rw [hp.count_eq r, List.count_append]
        exact Nat.le_add_right _ _
      · simp only [stepB]
        rw [dif_pos h]
        simp [List.count_cons]
    · have h' : ¬ i < s.pendingReminders.length := h
      constructor <;> (simp only [stepA, stepB]; rw [dif_neg h'])

/-- Claim C10: completing relocates the targeted record unchanged: in
variant B the new completed list is exactly the pending record at `i`
consed onto the old completed list, and in variant A that same record (all
fields identical) is a member of the new completed list. -/
theorem c10_complete_relocates_record_unchanged (s : AppState) (i : Nat)
    (h : i < s.pendingReminders.length) :
    (stepB (Ev.complete i) s).completedReminders =
      s.pendingReminders.get ⟨i, h⟩ :: s.completedReminders ∧
    s.pendingReminders.get ⟨i, h⟩ ∈
      (stepA (Ev.complete i) s).completedReminders := by
  constructor
  · simp only [stepB]
    rw [dif_pos h]
  · simp only [stepA]
    rw [dif_pos h]
    have hp := sortCmp_perm byMsDesc
      (s.completedReminders ++ [s.pendingReminders.get ⟨i, h⟩])
    exact hp.mem_iff.mpr (by simp)

/-- Witness for `c10_complete_relocates_record_unchanged` at a concrete
one-pending-reminder state. -/
theorem c10_complete_relocates_record_unchanged_witness :
    (stepB (Ev.complete 0)
      ⟨false, [⟨5, "x", "y"⟩], [], 0, "", ""⟩).completedReminders =
      [⟨5, "x", "y"⟩] ∧
    (⟨5, "x", "y"⟩ : Reminder) ∈
      (stepA (Ev.complete 0)
        ⟨false, [⟨5, "x", "y"⟩], [], 0, "", ""⟩).completedReminders :=
  c10_complete_relocates_record_unchanged _ 0 (by decide)

/-- Claim C3 (amended): in variant B, `listCompleted()` is the reverse of
the completion order — each completion prepends the completed record — so
the completed list is the reminders completed so far, most recently
completed first, prepended to whatever was completed before; it is not
sorted by due instant. -/
theorem c3_completedB_is_reverse_completion_order (evs : List Ev)
    (s : AppState) :
    (runB evs s).completedReminders =
      (completionsB evs s).reverse ++ s.completedReminders := by
  induction evs generalizing s with
  | nil => simp [runB, completionsB]
  | cons e es ih =>
    cases e with
    | complete i =>
      by_cases h : i < s.pendingReminders.length
      · simp only [runB, completionsB]
        rw [ih]
        rw [dif_pos h]
        simp only [stepB]
        rw [dif_pos h]
        simp [List.append_assoc]
      · simp only [runB, completionsB]
        rw [ih]
        rw [dif_neg h]
        simp only [stepB]
        rw [dif_neg h]
        simp
    | openView => simp only [runB, completionsB]; rw [ih]; simp [stepB]
    | focusLost => simp only [runB, completionsB]; rw [ih]; simp [stepB]
    | setTitle t =>
      simp only [runB, completionsB]
      rw [ih]
      simp only [stepB]
      split <;> simp
    | setDescription d =>
      simp only [runB, completionsB]
      rw [ih]
      simp only [stepB]
      split <;> simp
    | setDate d =>
      simp only [runB, completionsB]
      rw [ih]
      simp only [stepB]
      split <;> simp
    | create =>
      simp only [runB, completionsB]
      rw [ih]
      simp only [stepB]
      split <;> simp
